import Mathlib

/-!
Verification development for the Banking RAG / flashcard service.

Text is modelled as `List Char` (Python `str`, code points).  Python
exceptions are modelled by `Except` with an explicit error type; `None`
by `Option`.  External library leaves that the repository calls
(`json.loads`, `pandas.to_csv`, the langchain text splitter) are modelled
from their documented behavior on the data shapes this repository feeds
them, as described in the specification.
-/

namespace Flash

/-- Characters Python `str.strip()` removes (ASCII whitespace range used here). -/
def isPyWs (c : Char) : Bool :=
  c = ' ' || c = '\t' || c = '\n' || c = '\r' || c = '\x0b' || c = '\x0c'

/-- Model of Python `s.strip()`: drop whitespace from both ends. -/
def pyStrip (s : List Char) : List Char :=
  ((s.dropWhile isPyWs).reverse.dropWhile isPyWs).reverse

/-- Model of Python `s.replace(old, new)` for single characters. -/
def pyReplaceChar (old new : Char) (s : List Char) : List Char :=
  s.map (fun c => if c = old then new else c)

/-- A langchain `Document`: text plus a metadata mapping.  Metadata is an
association list of string keys to string values (the repository only ever
stores and reads `source` and `doc_type`, both strings). -/
structure Doc where
  page_content : List Char
  metadata : List (List Char × List Char)
deriving DecidableEq, Repr

/-- Model of Python `metadata.get(key, "")`: first binding wins, default empty. -/
def metaGetD (md : List (List Char × List Char)) (key : List Char) : List Char :=
  match md.find? (fun kv => kv.1 = key) with
  | some kv => kv.2
  | none => []

/-- Model of Python `metadata.get(key)` (default `None`). -/
def metaGet (md : List (List Char × List Char)) (key : List Char) : Option (List Char) :=
  (md.find? (fun kv => kv.1 = key)).map (fun kv => kv.2)

/-- Modelled from the spec: the text-splitting pass of
`RecursiveCharacterTextSplitter.split_documents`, whose implementation lives in
the external langchain library, not under `src/`.  The spec describes it as a
fixed-size sliding window: each emitted chunk holds at most `size` characters,
and each new chunk starts with the final `overlap` characters of the previous
chunk.  Splitting empty text yields no chunks (the library emits no document
for empty content). -/
def slidingWindow (size overlap : Nat) (hlt : overlap < size) (text : List Char) :
    List (List Char) :=
  if _h : text.length ≤ size then
    if text.isEmpty then [] else [text]
  else
    text.take size :: slidingWindow size overlap hlt (text.drop (size - overlap))
termination_by text.length
decreasing_by
  simp only [List.length_drop]
  omega

/-- Chunking configuration from `DocumentChunkingConfig`: defaults
`chunk_size = 1000`, `chunk_overlap = 200`, snapshot path
`artifacts/chunks/chunks.csv`. -/
structure DocumentChunkingConfig where
  chunks_file : List Char := "artifacts/chunks/chunks.csv".data
  chunk_size : Nat := 1000
  chunk_overlap : Nat := 200
deriving Repr

/-- The configuration actually used: `DocumentChunking.__init__` always builds
the default `DocumentChunkingConfig`. -/
def chunkingConfig : DocumentChunkingConfig := {}

/-- Chunks produced from a single document: split its text, each chunk
inheriting the document's metadata (as `split_documents` does). -/
def chunksOfDoc (d : Doc) : List Doc :=
  (slidingWindow 1000 200 (by norm_num) d.page_content).map
    (fun t => { page_content := t, metadata := d.metadata })

/-- `DocumentChunking.create_chunks_in_memory`: empty input gives `[]`,
otherwise every document is split and the chunk lists are concatenated in
document order. -/
def create_chunks_in_memory (documents : List Doc) : List Doc :=
  if documents.isEmpty then [] else documents.flatMap chunksOfDoc

/-! ## CSV snapshot (`create_chunks` and the spec's re-read) -/

/-- The double-quote character used by the CSV quoting model. -/
def dq : Char := '\x22'

/-- A field must be quoted when it contains the delimiter, the quote
character, or a line-break character (pandas `QUOTE_MINIMAL`). -/
def needsQuote (f : List Char) : Bool :=
  f.any (fun c => c = ',' || c = dq || c = '\n' || c = '\r')

/-- Double every quote character inside a quoted field. -/
def escapeQuotes (f : List Char) : List Char :=
  f.flatMap (fun c => if c = dq then [dq, dq] else [c])

/-- Model of pandas CSV field writing with minimal quoting. -/
def encodeField (f : List Char) : List Char :=
  if needsQuote f then dq :: (escapeQuotes f ++ [dq]) else f

/-- One snapshot row: the three columns `text, source, doc_type`. -/
structure Row where
  text : List Char
  source : List Char
  doc_type : List Char
deriving DecidableEq, Repr

/-- Encode one row, fields comma-separated, terminated by a newline. -/
def encodeRow (r : Row) : List Char :=
  encodeField r.text ++ ',' :: (encodeField r.source ++ ',' :: (encodeField r.doc_type ++ ['\n']))

/-- The header line `text,source,doc_type` written by every snapshot. -/
def headerLine : List Char := "text,source,doc_type\n".data

/-- Full snapshot content: header then one encoded line per row. -/
def encodeCsv (rows : List Row) : List Char :=
  headerLine ++ rows.flatMap encodeRow

/-- The row `create_chunks` stores for a chunk: its text plus `source` and
`doc_type` from its metadata, defaulting to the empty string when absent. -/
def rowOfChunk (c : Doc) : Row :=
  { text := c.page_content
    source := metaGetD c.metadata "source".data
    doc_type := metaGetD c.metadata "doc_type".data }

/-- `DocumentChunking.create_chunks`: on empty input, writes a snapshot with
only the header (`pd.DataFrame(columns=[...])`) and returns the configured
path with an empty chunk list; otherwise splits the documents and writes the
frame built from the per-chunk row comprehension.  When that comprehension is
empty (non-empty input whose documents all split to zero chunks),
`pd.DataFrame([])` has no columns, so `to_csv(index=False, header=True)`
writes only a blank header line — a lone newline, not `text,source,doc_type`.
The snapshot write is modelled by returning the file content alongside the
path. -/
def create_chunks (documents : List Doc) : (List Char × List Char) × List Doc :=
  if documents.isEmpty then
    ((chunkingConfig.chunks_file, headerLine), [])
  else
    let chunks := documents.flatMap chunksOfDoc
    ((chunkingConfig.chunks_file,
      if chunks.isEmpty then ['\n'] else encodeCsv (chunks.map rowOfChunk)),
     chunks)

/-- Parse a quoted CSV field body (after the opening quote): a doubled quote
stands for one quote character, a single quote ends the field.  Returns the
field and the unconsumed remainder. -/
def parseQuoted : List Char → List Char × List Char
  | [] => ([], [])
  | c :: rest =>
    if c = dq then
      match rest with
      | [] => ([], [])
      | c2 :: rest2 =>
        if c2 = dq then
          let p := parseQuoted rest2
          (dq :: p.1, p.2)
        else ([], rest)
    else
      let p := parseQuoted rest
      (c :: p.1, p.2)

/-- Parse an unquoted CSV field: everything up to (excluding) the next comma
or newline. -/
def parseUnquoted : List Char → List Char × List Char
  | [] => ([], [])
  | c :: rest =>
    if c = ',' || c = '\n' then ([], c :: rest)
    else
      let p := parseUnquoted rest
      (c :: p.1, p.2)

/-- Parse one CSV field, quoted or not. -/
def parseField (l : List Char) : List Char × List Char :=
  match l with
  | [] => ([], [])
  | c :: rest => if c = dq then parseQuoted rest else parseUnquoted (c :: rest)

/-- Expect and consume one specific character. -/
def expectChar (c : Char) (l : List Char) : Option (List Char) :=
  match l with
  | [] => none
  | x :: rest => if x = c then some rest else none

/-- Expect a record terminator: a newline, or end of input. -/
def expectEnd (l : List Char) : Option (List Char) :=
  match l with
  | [] => some []
  | x :: rest => if x = '\n' then some rest else none

/-- Parse one three-column CSV record terminated by a newline (or end of
input), yielding the row and the remainder. -/
def parseRecord3 (l : List Char) : Option (Row × List Char) :=
  let p1 := parseField l
  match expectChar ',' p1.2 with
  | none => none
  | some r1 =>
    let p2 := parseField r1
    match expectChar ',' p2.2 with
    | none => none
    | some r2 =>
      let p3 := parseField r2
      match expectEnd p3.2 with
      | none => none
      | some r3 => some (⟨p1.1, p2.1, p3.1⟩, r3)

/-- Parse a sequence of three-column records until the input is exhausted;
`fuel` bounds the recursion depth. -/
def parseRecords : Nat → List Char → Option (List Row)
  | 0, _ => none
  | fuel + 1, l =>
    if l.isEmpty then some []
    else
      match parseRecord3 l with
      | none => none
      | some p =>
        match parseRecords fuel p.2 with
        | none => none
        | some rs => some (p.1 :: rs)

/-- The header row of the snapshot table. -/
def hdrRow : Row := ⟨"text".data, "source".data, "doc_type".data⟩

/-- Modelled from the spec: re-reading the persisted snapshot (the spec's
round-trip property; no reader for `chunks.csv` exists under `src/`).  The
content must start with the header row; the remaining records are the chunk
rows. -/
def readSnapshot (content : List Char) : Option (List Row) :=
  match parseRecords (content.length + 1) content with
  | some (hdr :: rows) => if hdr = hdrRow then some rows else none
  | _ => none

/-! ## JSON values and a model of `json.loads` -/

/-- JSON values as produced by `json.loads`: objects keep their key/value
pairs in input order (duplicate keys resolved last-wins at lookup, as Python
dicts built by the decoder behave). Numbers are modelled as integers — the
subset the repository's flashcard flow exchanges. -/
inductive Json where
  | null : Json
  | bool (b : Bool) : Json
  | num (n : Int) : Json
  | str (s : List Char) : Json
  | arr (l : List Json) : Json
  | obj (kvs : List (List Char × Json)) : Json
deriving Repr

/-- The opening brace character. -/
def lbrace : Char := '\x7b'

/-- The closing brace character. -/
def rbrace : Char := '\x7d'

/-- JSON insignificant whitespace (space, tab, newline, carriage return). -/
def jsonSkipWs (l : List Char) : List Char :=
  l.dropWhile (fun c => c = ' ' || c = '\t' || c = '\n' || c = '\r')

/-- Parse a JSON string body after the opening quote, handling the
single-character escapes (the model omits `\uXXXX`). -/
def parseJsonString : List Char → Option (List Char × List Char)
  | [] => none
  | '\x22' :: rest => some ([], rest)
  | '\\' :: c :: rest => do
    let e ← (match c with
      | '\x22' => some dq
      | '\\' => some '\\'
      | '/' => some '/'
      | 'n' => some '\n'
      | 't' => some '\t'
      | 'r' => some '\r'
      | 'b' => some '\x08'
      | 'f' => some '\x0c'
      | _ => none)
    let p ← parseJsonString rest
    some (e :: p.1, p.2)
  | c :: rest => do
    let p ← parseJsonString rest
    some (c :: p.1, p.2)

/-- Parse a nonempty run of decimal digits into a natural number. -/
def parseJsonDigits (l : List Char) : Option (Nat × List Char) :=
  let ds := l.takeWhile Char.isDigit
  if ds.isEmpty then none
  else some (ds.foldl (fun a c => a * 10 + (c.toNat - 48)) 0, l.dropWhile Char.isDigit)

/-- Parse a JSON integer literal (optional leading minus). -/
def parseJsonNumber (l : List Char) : Option (Json × List Char) :=
  match l with
  | '-' :: rest => (parseJsonDigits rest).map (fun p => (Json.num (-(p.1 : Int)), p.2))
  | _ => (parseJsonDigits l).map (fun p => (Json.num (p.1 : Int), p.2))

/-- What the recursive-descent decoder is currently parsing: a value, the
inside of an array (just after `[`), array elements, the inside of an object
(just after its opening brace), or object members. -/
inductive PMode where
  | value : PMode
  | arrayTail : PMode
  | elems : PMode
  | objTail : PMode
  | members : PMode
deriving DecidableEq, Repr

/-- Recursive-descent JSON parser, structural on `fuel`.  Element-list and
member-list results are carried as `Json.arr`/`Json.obj` values so all modes
share one return type. -/
def parseJ : Nat → PMode → List Char → Option (Json × List Char)
  | 0, _, _ => none
  | fuel + 1, .value, l =>
    match jsonSkipWs l with
    | 'n' :: 'u' :: 'l' :: 'l' :: rest => some (.null, rest)
    | 't' :: 'r' :: 'u' :: 'e' :: rest => some (.bool true, rest)
    | 'f' :: 'a' :: 'l' :: 's' :: 'e' :: rest => some (.bool false, rest)
    | '\x22' :: rest => (parseJsonString rest).map (fun p => (.str p.1, p.2))
    | '[' :: rest => parseJ fuel .arrayTail (jsonSkipWs rest)
    | '\x7b' :: rest => parseJ fuel .objTail (jsonSkipWs rest)
    | l' => parseJsonNumber l'
  | fuel + 1, .arrayTail, l =>
    match l with
    | ']' :: rest => some (.arr [], rest)
    | _ => parseJ fuel .elems l
  | fuel + 1, .elems, l =>
    match parseJ fuel .value l with
    | none => none
    | some (v, rest) =>
      match jsonSkipWs rest with
      | ',' :: rest2 =>
        (match parseJ fuel .elems rest2 with
         | some (.arr vs, r) => some (.arr (v :: vs), r)
         | _ => none)
      | ']' :: rest2 => some (.arr [v], rest2)
      | _ => none
  | fuel + 1, .objTail, l =>
    match l with
    | '\x7d' :: rest => some (.obj [], rest)
    | _ => parseJ fuel .members l
  | fuel + 1, .members, l =>
    match jsonSkipWs l with
    | '\x22' :: rest =>
      (match parseJsonString rest with
       | none => none
       | some (k, r1) =>
         match jsonSkipWs r1 with
         | ':' :: r2 =>
           (match parseJ fuel .value r2 with
            | none => none
            | some (v, rest3) =>
              match jsonSkipWs rest3 with
              | ',' :: rest4 =>
                (match parseJ fuel .members rest4 with
                 | some (.obj kvs, r) => some (.obj ((k, v) :: kvs), r)
                 | _ => none)
              | '\x7d' :: rest4 => some (.obj [(k, v)], rest4)
              | _ => none)
         | _ => none)
    | _ => none

/-- Model of Python `json.loads`: parse one JSON value and require the rest
of the input to be whitespace. -/
def json_loads (s : List Char) : Option Json :=
  match parseJ (3 * s.length + 3) .value s with
  | some (v, rest) => if (jsonSkipWs rest).isEmpty then some v else none
  | none => none

/-! ## `FlashcardPipeline._parse_flashcards` -/

/-- Python exceptions the flashcard parsing path can raise.
`malformedOutput` models `json.JSONDecodeError` — the error the spec's
taxonomy calls `MalformedOutputError` (model response not interpretable as
JSON).  `attributeError` models `AttributeError` from calling `.get` or
`.strip` on a value without that method; `typeError` models iterating a
non-iterable. -/
inductive PyErr where
  | malformedOutput : PyErr
  | attributeError : PyErr
  | typeError : PyErr
deriving DecidableEq, Repr

/-- A flashcard: one `question`/`answer` pair. -/
structure Card where
  question : List Char
  answer : List Char
deriving DecidableEq, Repr

/-- Model of Python `str.find(ch)`: index of first occurrence, `None` for the
`-1` sentinel. -/
def pyFindChar (c : Char) (s : List Char) : Option Nat :=
  s.findIdx? (fun x => x == c)

/-- Model of Python `str.rfind(ch)`: index of last occurrence. -/
def pyRFindChar (c : Char) (s : List Char) : Option Nat :=
  match s.reverse.findIdx? (fun x => x == c) with
  | some i => some (s.length - 1 - i)
  | none => none

/-- The brace-extraction step of `_parse_flashcards`: take `raw[start:end+1]`
where `start` is the first `{` and `end` the last `}`, provided both exist and
`end > start`; otherwise fall back to the raw text. -/
def extract_json_str (raw : List Char) : List Char :=
  match pyFindChar lbrace raw, pyRFindChar rbrace raw with
  | some s, some e => if s < e then (raw.drop s).take (e + 1 - s) else raw
  | some _, none => raw
  | none, _ => raw

/-- Python `dict.get` on a decoded JSON object: last binding wins, `None`
when absent. -/
def pyDictGet (kvs : List (List Char × Json)) (k : List Char) : Option Json :=
  (kvs.reverse.find? (fun kv => kv.1 == k)).map (fun kv => kv.2)

/-- Model of Python `for item in x` over a decoded JSON value: lists iterate
their elements, strings their characters (as one-character strings), dicts
their keys; anything else raises `TypeError`. -/
def pyIterJson (j : Json) : Except PyErr (List Json) :=
  match j with
  | .arr l => .ok l
  | .str s => .ok (s.map (fun c => Json.str [c]))
  | .obj kvs => .ok (kvs.map (fun kv => Json.str kv.1))
  | _ => .error .typeError

/-- Model of `item.get(key, "").strip()`: the item must be a dict
(`AttributeError` otherwise), the looked-up value must be a string or absent
(`.strip` on a non-string raises `AttributeError`). -/
def getCardField (item : Json) (key : List Char) : Except PyErr (List Char) :=
  match item with
  | .obj kvs =>
    match pyDictGet kvs key with
    | some (.str s) => .ok (pyStrip s)
    | some _ => .error .attributeError
    | none => .ok []
  | _ => .error .attributeError

/-- Decidable equality for `Except` results, used to evaluate concrete runs. -/
instance {ε α : Type} [DecidableEq ε] [DecidableEq α] :
    DecidableEq (Except ε α) := fun a b =>
  match a, b with
  | .ok x, .ok y =>
    if h : x = y then isTrue (congrArg Except.ok h)
    else isFalse (fun hh => h (Except.ok.inj hh))
  | .error x, .error y =>
    if h : x = y then isTrue (congrArg Except.error h)
    else isFalse (fun hh => h (Except.error.inj hh))
  | .ok _, .error _ => isFalse (fun hh => Except.noConfusion hh)
  | .error _, .ok _ => isFalse (fun hh => Except.noConfusion hh)

/-- One iteration of the filtering loop in `_parse_flashcards`: read both
trimmed fields (possibly raising) and append the card when both are
non-empty. -/
def cardStep (acc : List Card) (item : Json) : Except PyErr (List Card) :=
  match getCardField item "question".data with
  | .error e => .error e
  | .ok q =>
    match getCardField item "answer".data with
    | .error e => .error e
    | .ok a => .ok (if q.isEmpty || a.isEmpty then acc else acc ++ [Card.mk q a])

/-- The post-decode stage of `_parse_flashcards`: `data.get("cards", [])`
(`AttributeError` when `data` is not a dict), then the filtering loop keeping
entries whose trimmed `question` and `answer` are both non-empty. -/
def processCards (data : Json) : Except PyErr (List Card) :=
  match data with
  | .obj kvs =>
    match pyIterJson ((pyDictGet kvs "cards".data).getD (.arr [])) with
    | .error e => .error e
    | .ok items => items.foldlM cardStep []
  | _ => .error .attributeError

/-- `FlashcardPipeline._parse_flashcards`: brace extraction, `json.loads`
(decode failure surfaces as the spec's `MalformedOutputError`), then the
card-filtering loop. -/
def parse_flashcards (raw : List Char) : Except PyErr (List Card) :=
  match json_loads (extract_json_str raw) with
  | none => .error .malformedOutput
  | some data => processCards data

/-! ## `FlashcardPipeline.generate_from_docs` up to the prompt -/

/-- The instance default `max_cards` set in `FlashcardPipeline.__init__`. -/
def defaultMaxCards : Int := 20

/-- Model of the Python expression `x or d` for an optional integer `x`:
`None` and `0` are falsy, so both select the default. -/
def pyOrInt (x : Option Int) (d : Int) : Int :=
  match x with
  | none => d
  | some v => if v = 0 then d else v

/-- The parameters `_build_prompt` interpolates into its f-string: the
combined document text and the card budget the prompt asks the model for
("create at most `num_cards` ... flashcards"). -/
structure Prompt where
  text : List Char
  num_cards : Int
deriving DecidableEq, Repr

/-- `"\n\n".join(...)`: concatenate chunk texts with blank-line separators. -/
def joinChunkText : List (List Char) → List Char
  | [] => []
  | [t] => t
  | t :: ts => t ++ '\n' :: '\n' :: joinChunkText ts

/-- The deterministic front half of `FlashcardPipeline.generate_from_docs`
(everything before the model call): early `None` for empty input or empty
chunking result, otherwise the prompt built from the concatenated chunk text
and `max_cards or self.max_cards`. -/
def generate_prompt (documents : List Doc) (max_cards : Option Int) : Option Prompt :=
  if documents.isEmpty then none
  else
    let chunks := create_chunks_in_memory documents
    if chunks.isEmpty then none
    else some
      { text := joinChunkText (chunks.map (fun c => c.page_content))
        num_cards := pyOrInt max_cards defaultMaxCards }

/-! ## API layer (`src/server/app.py`, `src/server/schemas.py`) -/

/-- A `SourceDocument` summary in an `/ask` response. -/
structure SourceDocument where
  source : Option (List Char)
  doc_type : Option (List Char)
  preview : List Char
deriving DecidableEq, Repr

/-- The summary `_build_sources` produces for one retrieved document:
`source`/`doc_type` straight from metadata, preview =
`page_content[:280].strip().replace("\n", " ")`. -/
def summaryOfDoc (d : Doc) : SourceDocument :=
  { source := metaGet d.metadata "source".data
    doc_type := metaGet d.metadata "doc_type".data
    preview := pyReplaceChar '\n' ' ' (pyStrip (d.page_content.take 280)) }

/-- `_build_sources`: summaries of the first `max_items` (default 3)
retrieved documents. -/
def build_sources (docs : List Doc) : List SourceDocument :=
  (docs.take 3).map summaryOfDoc

/-- A chat message in `/ask` history. -/
structure ChatMessage where
  role : Bool
  content : List Char
deriving DecidableEq, Repr

/-- The `/ask` request body before validation. -/
structure AskRequestRaw where
  question : List Char
  doc_type : Option (List Char)
  history : List ChatMessage
deriving DecidableEq, Repr

/-- Pydantic validation of `AskRequest`: `question` carries
`min_length=1`, so an empty question fails validation (FastAPI then answers
422 before the handler body runs). -/
def validAskRequest (r : AskRequestRaw) : Bool :=
  1 ≤ r.question.length

/-- Outcome of an `/ask` request as seen by the client. -/
inductive AskOutcome where
  | validationFailure : AskOutcome
  | success (answer : List Char) (sources : List SourceDocument) : AskOutcome
  | serverError : AskOutcome
deriving Repr

/-- The `/ask` route: request validation happens before the handler; the
handler calls the orchestrator (`pipeline.answer_question`, an oracle here)
and builds the response, mapping any orchestrator exception to HTTP 500.
Returns the outcome together with whether the orchestrator was invoked. -/
def ask_route (r : AskRequestRaw)
    (orch : List Char → List ChatMessage → Option (List Char) → Except Unit (List Char × List Doc)) :
    AskOutcome × Bool :=
  if validAskRequest r then
    match orch r.question r.history r.doc_type with
    | .ok (answer, docs) => (.success answer (build_sources docs), true)
    | .error _ => (.serverError, true)
  else
    (.validationFailure, false)

/-- State visible to the `/flashcards` handler model: whether the temporary
upload file currently exists on disk. -/
structure TmpState where
  tmpExists : Bool
deriving DecidableEq, Repr

/-- Python `try ... finally`: run the body (whose exception, if any, is the
`Except.error` result), then the finaliser on either path, and propagate the
body's result. -/
def runFinally {α : Type} (body : TmpState → Except Unit α × TmpState)
    (fin : TmpState → TmpState) (s : TmpState) : Except Unit α × TmpState :=
  let p := body s
  (p.1, fin p.2)

/-- The `/flashcards` handler after the upload bytes have been written to the
temporary file (the point at which the claim's premise — the file exists on
disk — holds).  `loadRes`, `genRes` and `buildRes` are oracles for
`load_uploaded_pdf`, `generate_from_docs` and response construction; each may
raise.  The inner `try`/`finally` removes the temporary file on every path,
and the outer `except` turns any exception into an HTTP 500. -/
def flashcards_handler (loadRes : Except Unit (List Doc))
    (genRes : List Doc → Except Unit (List Card))
    (buildRes : List Card → Except Unit (List Card)) :
    Except Unit (List Card) × TmpState :=
  let afterWrite : TmpState := { tmpExists := true }
  runFinally
    (fun s =>
      (do
        let docs ← loadRes
        let cards ← genRes docs
        buildRes cards, s))
    (fun s => { s with tmpExists := false })
    afterWrite

/-! ## Spec-side predicates used by the theorem statements -/

/-- Consecutive-chunk sharing, as the spec states it: every non-final chunk
is exactly `size` characters long, and its final `overlap` characters are
exactly the first `overlap` characters of the next chunk (which is itself
longer than `overlap`, so the shared run has length exactly `overlap`). -/
def consecSharesOverlap (size overlap : Nat) (cs : List (List Char)) : Prop :=
  ∀ i, i + 1 < cs.length →
    (cs.getD i []).length = size ∧
    overlap < (cs.getD (i + 1) []).length ∧
    (cs.getD i []).drop (size - overlap) = (cs.getD (i + 1) []).take overlap

/-- A member that is absent or bound to a string (the only shapes
`item.get(key, "").strip()` survives). -/
def strOrAbsent (o : Option Json) : Bool :=
  match o with
  | none => true
  | some (.str _) => true
  | some _ => false

/-- The trimmed string value of a member (empty when absent). -/
def fieldOf (kvs : List (List Char × Json)) (key : List Char) : List Char :=
  match pyDictGet kvs key with
  | some (.str s) => pyStrip s
  | _ => []

/-- A `cards` entry the filtering loop can process without raising: a JSON
object whose `question` and `answer` members, when present, are strings. -/
def wellFormedCardEntry (item : Json) : Bool :=
  match item with
  | .obj kvs =>
    strOrAbsent (pyDictGet kvs "question".data) &&
      strOrAbsent (pyDictGet kvs "answer".data)
  | _ => false

/-- The card the filtering loop keeps for a well-formed entry: `some` exactly
when both trimmed fields are non-empty. -/
def specKeepCard (item : Json) : Option Card :=
  match item with
  | .obj kvs =>
    if (fieldOf kvs "question".data).isEmpty || (fieldOf kvs "answer".data).isEmpty then none
    else some (Card.mk (fieldOf kvs "question".data) (fieldOf kvs "answer".data))
  | _ => none

/-! ## Theorems -/

/-- Claim C3: calling the persisting chunk operation on an empty Document
list writes a snapshot containing only the header row `text,source,doc_type`
at the configured snapshot path, and returns that path together with an empty
chunk list. -/
theorem create_chunks_empty_header_only :
    create_chunks [] = ((chunkingConfig.chunks_file, "text,source,doc_type\n".data), []) := rfl

/-- Claim C4: for every outcome of loading, flashcard generation and response
construction (success or raised exception), the `/flashcards` handler's
temporary upload file no longer exists when the handler finishes: the inner
`try`/`finally` removes it on every exit path. -/
theorem flashcards_tmpfile_always_removed
    (loadRes : Except Unit (List Doc))
    (genRes : List Doc → Except Unit (List Card))
    (buildRes : List Card → Except Unit (List Card)) :
    (flashcards_handler loadRes genRes buildRes).2.tmpExists = false := rfl

/-- Claim C7: an `/ask` request with an empty `question` is rejected by
request validation — the outcome is a validation failure (not a 500 server
error) and the orchestrator is never invoked. -/
theorem ask_empty_question_rejected (r : AskRequestRaw)
    (orch : List Char → List ChatMessage → Option (List Char) →
      Except Unit (List Char × List Doc))
    (h : r.question = []) :
    ask_route r orch = (.validationFailure, false) := by
  simp [ask_route, validAskRequest, h]

/-- Witness for C7 at a concrete empty-question request. -/
theorem ask_empty_question_rejected_witness :
    ask_route ⟨[], none, []⟩ (fun _ _ _ => .ok ([], [])) = (.validationFailure, false) :=
  ask_empty_question_rejected _ _ rfl

/-- Claim C2: `_parse_flashcards` extracts the substring between the first
`{` and the last `}` when both exist with the first `{` before the last `}`,
falls back to the raw response when no such brace pair exists, and fails with
the spec's `MalformedOutputError` when the extracted text is not valid
JSON. -/
theorem parse_flashcards_lenient_extraction (raw : List Char) :
    (∀ s e, pyFindChar lbrace raw = some s → pyRFindChar rbrace raw = some e →
      s < e → extract_json_str raw = (raw.drop s).take (e + 1 - s))
    ∧ ((pyFindChar lbrace raw = none ∨ pyRFindChar rbrace raw = none ∨
        ∀ s e, pyFindChar lbrace raw = some s → pyRFindChar rbrace raw = some e →
          ¬ s < e) →
      extract_json_str raw = raw)
    ∧ ((json_loads (extract_json_str raw)).isNone = true →
      parse_flashcards raw = .error .malformedOutput) := by
  refine ⟨?_, ?_, ?_⟩
  · intro s e hs he hlt
    simp [extract_json_str, hs, he, hlt]
  · intro h
    cases hf : pyFindChar lbrace raw with
    | none => simp [extract_json_str, hf]
    | some s =>
      cases hr : pyRFindChar rbrace raw with
      | none => simp [extract_json_str, hf, hr]
      | some e =>
        rcases h with h | h | h
        · exact absurd hf (by simp [h])
        · exact absurd hr (by simp [h])
        · simp [extract_json_str, hf, hr, h s e hf hr]
  · intro h
    unfold parse_flashcards
    cases hj : json_loads (extract_json_str raw) with
    | none => rfl
    | some v => simp [hj] at h

/-- Witness for C2: extraction on prose-wrapped braces, and the
malformed-output failure on brace-extracted text that is not JSON. -/
theorem parse_flashcards_lenient_extraction_witness :
    extract_json_str "ab\x7bcd\x7def".data =
      ("ab\x7bcd\x7def".data.drop 2).take 4
    ∧ parse_flashcards "\x7bnot json\x7d".data = .error .malformedOutput := by
  have h : (json_loads (extract_json_str "\x7bnot json\x7d".data)).isNone = true := rfl
  exact ⟨(parse_flashcards_lenient_extraction "ab\x7bcd\x7def".data).1 2 5
      (by decide) (by decide) (by omega),
    (parse_flashcards_lenient_extraction "\x7bnot json\x7d".data).2.2 h⟩

/-- Counterexample to claim C10 as stated: `"[1, 2]"` is valid JSON that is
not an object containing a `"cards"` key, yet the parser raises
(`data.get` on a list raises `AttributeError`) instead of returning an empty
list. -/
theorem parse_valid_json_non_object_raises :
    (json_loads "[1, 2]".data).isSome = true
    ∧ parse_flashcards "[1, 2]".data = .error .attributeError
    ∧ parse_flashcards "[1, 2]".data ≠ .ok [] := by
  have h1 : (json_loads "[1, 2]".data).isSome = true := rfl
  have h2 : parse_flashcards "[1, 2]".data = Except.error PyErr.attributeError := rfl
  exact ⟨h1, h2, by rw [h2]; exact fun hh => Except.noConfusion hh⟩

/-- Claim C10 (amended): a model response that parses as a valid JSON
*object* without a `"cards"` key, or whose `"cards"` value is the empty list,
yields an empty card list with no error; a valid-JSON response that is a list
rather than an object raises `AttributeError` instead. -/
theorem processCards_wrong_shape (kvs : List (List Char × Json)) :
    (pyDictGet kvs "cards".data = none → processCards (.obj kvs) = .ok [])
    ∧ (pyDictGet kvs "cards".data = some (.arr []) → processCards (.obj kvs) = .ok [])
    ∧ (∀ l : List Json, processCards (.arr l) = .error .attributeError) := by
  refine ⟨?_, ?_, fun _ => rfl⟩
  · intro h
    simp only [processCards, h]
    rfl
  · intro h
    simp only [processCards, h]
    rfl

/-- Witness for C10 (amended): a concrete object without `cards`, and one
with an empty `cards` list. -/
theorem processCards_wrong_shape_witness :
    processCards (.obj [("x".data, Json.num 1)]) = .ok []
    ∧ processCards (.obj [("cards".data, Json.arr [])]) = .ok [] :=
  ⟨(processCards_wrong_shape [("x".data, Json.num 1)]).1 rfl,
   (processCards_wrong_shape [("cards".data, Json.arr [])]).2.1 rfl⟩

/-- Bind on a successful `Except` runs the continuation. -/
theorem except_bind_ok {ε α β : Type} (a : α) (f : α → Except ε β) :
    ((Except.ok a : Except ε α) >>= f) = f a := rfl

/-- Reading a well-formed member with `item.get(key, "").strip()` yields its
trimmed string value. -/
theorem getCardField_obj (kvs : List (List Char × Json)) (key : List Char)
    (h : strOrAbsent (pyDictGet kvs key) = true) :
    getCardField (.obj kvs) key = .ok (fieldOf kvs key) := by
  cases ho : pyDictGet kvs key with
  | none => simp [getCardField, fieldOf, ho]
  | some v =>
    cases v with
    | str s => simp [getCardField, fieldOf, ho]
    | null => simp [strOrAbsent, ho] at h
    | bool b => simp [strOrAbsent, ho] at h
    | num n => simp [strOrAbsent, ho] at h
    | arr l => simp [strOrAbsent, ho] at h
    | obj kvs2 => simp [strOrAbsent, ho] at h

/-- The filtering loop over well-formed entries accumulates exactly the
entries `specKeepCard` keeps. -/
theorem foldlM_cardStep (items : List Json) (acc : List Card)
    (hw : ∀ item ∈ items, wellFormedCardEntry item = true) :
    items.foldlM cardStep acc = .ok (acc ++ items.filterMap specKeepCard) := by
  induction items generalizing acc with
  | nil =>
    show (pure acc : Except PyErr (List Card)) = .ok (acc ++ [])
    rw [List.append_nil]
    rfl
  | cons item rest ih =>
    have hitem : wellFormedCardEntry item = true := hw item (by simp)
    have hrest : ∀ x ∈ rest, wellFormedCardEntry x = true := fun x hx => hw x (by simp [hx])
    cases item with
    | obj kvs =>
      simp only [wellFormedCardEntry, Bool.and_eq_true] at hitem
      have hqe := getCardField_obj kvs "question".data hitem.1
      have hae := getCardField_obj kvs "answer".data hitem.2
      simp only [List.foldlM, cardStep, hqe, hae, except_bind_ok]
      split
      · rw [ih _ hrest]
        simp_all [specKeepCard]
      · rw [ih _ hrest]
        simp_all [specKeepCard, List.append_assoc]
    | null => simp [wellFormedCardEntry] at hitem
    | bool b => simp [wellFormedCardEntry] at hitem
    | num n => simp [wellFormedCardEntry] at hitem
    | str s => simp [wellFormedCardEntry] at hitem
    | arr l => simp [wellFormedCardEntry] at hitem

/-- Claim C5 (amended): for a parsed response whose `cards` entries are JSON
objects with string (or absent) `question`/`answer` members, the filter keeps
exactly those entries whose trimmed `question` and `answer` are both
non-empty and silently drops the rest, with no bound on how many survive; an
entry of any other shape instead raises an exception. -/
theorem processCards_keeps_exactly_nonempty (kvs : List (List Char × Json))
    (items : List Json)
    (hc : pyDictGet kvs "cards".data = some (.arr items))
    (hw : ∀ item ∈ items, wellFormedCardEntry item = true) :
    processCards (.obj kvs) = .ok (items.filterMap specKeepCard) := by
  simp only [processCards, hc, Option.getD, pyIterJson]
  exact (foldlM_cardStep items [] hw).trans (by rw [List.nil_append])

/-- Witness for C5 (amended) at the spec's example: the empty-question card
is dropped, the complete card survives. -/
theorem processCards_keeps_exactly_nonempty_witness :
    processCards (.obj [("cards".data,
      Json.arr [Json.obj [("question".data, Json.str []),
                          ("answer".data, Json.str "A".data)],
                Json.obj [("question".data, Json.str "Q2".data),
                          ("answer".data, Json.str "A2".data)]])]) =
      .ok [Card.mk "Q2".data "A2".data] :=
  (processCards_keeps_exactly_nonempty
    [("cards".data,
      Json.arr [Json.obj [("question".data, Json.str []),
                          ("answer".data, Json.str "A".data)],
                Json.obj [("question".data, Json.str "Q2".data),
                          ("answer".data, Json.str "A2".data)]])]
    [Json.obj [("question".data, Json.str []),
               ("answer".data, Json.str "A".data)],
     Json.obj [("question".data, Json.str "Q2".data),
               ("answer".data, Json.str "A2".data)]]
    rfl (by decide)).trans (by rfl)

/-- Counterexample to claim C5 as stated: the entry `5` in
`{"cards": [5]}` is not "silently dropped" — `item.get` on a non-dict raises
`AttributeError`, so the request fails instead of returning the filtered
list. -/
theorem processCards_malformed_entry_raises :
    parse_flashcards "\x7b\"cards\": [5]\x7d".data = .error .attributeError
    ∧ parse_flashcards "\x7b\"cards\": [5]\x7d".data ≠ .ok [] := by
  have h : parse_flashcards "\x7b\"cards\": [5]\x7d".data
      = Except.error PyErr.attributeError := rfl
  exact ⟨h, by rw [h]; exact fun hh => Except.noConfusion hh⟩

/-- Claim C9: in `generate_from_docs`, a falsy `max_cards` override (`0` or
`None`) is silently replaced by the instance default via
`max_cards or self.max_cards`, so the prompt asks for up to 20 cards. -/
theorem max_cards_falsy_uses_default (docs : List Doc)
    (h1 : docs ≠ []) (h2 : create_chunks_in_memory docs ≠ []) :
    pyOrInt (some 0) defaultMaxCards = 20
    ∧ (generate_prompt docs (some 0)).map Prompt.num_cards = some 20
    ∧ (generate_prompt docs none).map Prompt.num_cards = some 20 := by
  refine ⟨rfl, ?_, ?_⟩ <;>
    simp [generate_prompt, List.isEmpty_iff, h1, h2, pyOrInt, defaultMaxCards]

/-- Witness for C9 at a concrete one-document input. -/
theorem max_cards_falsy_uses_default_witness :
    (generate_prompt [Doc.mk "hi".data []] (some 0)).map Prompt.num_cards = some 20 :=
  (max_cards_falsy_uses_default [Doc.mk "hi".data []] (by simp)
    (by simp [create_chunks_in_memory, chunksOfDoc, slidingWindow])).2.1

/-- The preview never shrinks below the strip/replace pipeline: stripping
only removes characters. -/
theorem pyStrip_length_le (s : List Char) : (pyStrip s).length ≤ s.length := by
  simp only [pyStrip, List.length_reverse]
  calc ((s.dropWhile isPyWs).reverse.dropWhile isPyWs).length
      ≤ (s.dropWhile isPyWs).reverse.length :=
        List.Sublist.length_le (List.dropWhile_sublist _)
    _ ≤ s.length := by
        rw [List.length_reverse]
        exact List.Sublist.length_le (List.dropWhile_sublist _)

/-- Replacing newlines by spaces keeps the length. -/
theorem pyReplaceChar_length (old new : Char) (s : List Char) :
    (pyReplaceChar old new s).length = s.length := by
  simp [pyReplaceChar]

/-- After replacing every newline by a space, no newline remains. -/
theorem newline_not_mem_pyReplaceChar (s : List Char) :
    '\n' ∉ pyReplaceChar '\n' ' ' s := by
  intro h
  rcases List.mem_map.1 h with ⟨c, _, hc⟩
  by_cases hcc : c = '\n' <;> simp [hcc] at hc

/-- Claim C8: on a successful `/ask` request the response carries the
orchestrator's answer plus at most 3 source summaries, in retrieval order,
each built from one of the first three retrieved documents: `source` and
`doc_type` from its metadata and a preview of at most 280 characters that
contains no newline. -/
theorem ask_success_sources (r : AskRequestRaw)
    (orch : List Char → List ChatMessage → Option (List Char) →
      Except Unit (List Char × List Doc))
    (answer : List Char) (docs : List Doc)
    (hv : validAskRequest r = true)
    (ho : orch r.question r.history r.doc_type = .ok (answer, docs)) :
    ask_route r orch = (.success answer (build_sources docs), true)
    ∧ build_sources docs = (docs.take 3).map summaryOfDoc
    ∧ (build_sources docs).length ≤ 3
    ∧ ∀ s ∈ build_sources docs,
        s.preview.length ≤ 280 ∧ '\n' ∉ s.preview
        ∧ ∃ d ∈ docs.take 3, s = summaryOfDoc d
          ∧ s.source = metaGet d.metadata "source".data
          ∧ s.doc_type = metaGet d.metadata "doc_type".data := by
  refine ⟨by simp [ask_route, hv, ho], rfl, ?_, ?_⟩
  · calc (build_sources docs).length = (docs.take 3).length := by simp [build_sources]
      _ ≤ 3 := by simp [List.length_take]
  · intro s hs
    rcases List.mem_map.1 hs with ⟨d, hd, hsd⟩
    refine ⟨?_, ?_, d, hd, hsd.symm, by rw [← hsd]; rfl, by rw [← hsd]; rfl⟩
    · rw [← hsd]
      calc (summaryOfDoc d).preview.length
          = (pyStrip (d.page_content.take 280)).length := pyReplaceChar_length _ _ _
        _ ≤ (d.page_content.take 280).length := pyStrip_length_le _
        _ ≤ 280 := by simp [List.length_take]
    · rw [← hsd]
      exact newline_not_mem_pyReplaceChar _

/-- Witness for C8 at a concrete request with four retrieved documents. -/
theorem ask_success_sources_witness :
    ask_route ⟨"q".data, none, []⟩
      (fun _ _ _ => .ok ("ans".data,
        [Doc.mk "a\nb".data [("source".data, "s1".data)],
         Doc.mk "c".data [], Doc.mk "d".data [], Doc.mk "e".data []])) =
      (.success "ans".data (build_sources
        [Doc.mk "a\nb".data [("source".data, "s1".data)],
         Doc.mk "c".data [], Doc.mk "d".data [], Doc.mk "e".data []]), true) :=
  (ask_success_sources _ _ _ _ (by decide) rfl).1

/-- Unfolding equation for the sliding-window splitter. -/
theorem slidingWindow_eq (size overlap : Nat) (h : overlap < size) (text : List Char) :
    slidingWindow size overlap h text =
      if text.length ≤ size then (if text.isEmpty then [] else [text])
      else text.take size :: slidingWindow size overlap h (text.drop (size - overlap)) := by
  rw [slidingWindow]
  split <;> rfl

/-- Splitting non-empty text yields at least one chunk. -/
theorem slidingWindow_ne_nil (size overlap : Nat) (h : overlap < size) (text : List Char)
    (ht : text ≠ []) : slidingWindow size overlap h text ≠ [] := by
  rw [slidingWindow_eq]
  split
  · simp [List.isEmpty_iff, ht]
  · simp

/-- Every chunk the splitter emits holds at most `size` characters. -/
theorem slidingWindow_length_le (size overlap : Nat) (h : overlap < size) (text : List Char) :
    ∀ c ∈ slidingWindow size overlap h text, c.length ≤ size := by
  induction text using slidingWindow.induct size overlap h with
  | case1 x h1 h2 =>
    rw [slidingWindow_eq]
    simp [if_pos h1, h2]
  | case2 x h1 h2 =>
    rw [slidingWindow_eq]
    simp only [if_pos h1, if_neg h2]
    intro c hc
    simp only [List.mem_singleton] at hc
    subst hc
    exact h1
  | case3 x h1 ih =>
    rw [slidingWindow_eq, if_neg h1]
    intro c hc
    rcases List.mem_cons.1 hc with hc | hc
    · subst hc
      simp only [List.length_take]
      omega
    · exact ih c hc

/-- The first chunk of non-empty text is its first `size` characters. -/
theorem slidingWindow_getD_zero (size overlap : Nat) (h : overlap < size) (t : List Char)
    (ht : t ≠ []) : (slidingWindow size overlap h t).getD 0 [] = t.take size := by
  rw [slidingWindow_eq]
  split
  · rename_i hle
    simp [List.isEmpty_iff, ht, List.take_of_length_le hle]
  · simp

/-- Consecutive chunks of one split share exactly `overlap` characters: each
non-final chunk is full-size and its last `overlap` characters are the first
`overlap` characters of the next chunk. -/
theorem slidingWindow_consec (size overlap : Nat) (h : overlap < size) (text : List Char) :
    consecSharesOverlap size overlap (slidingWindow size overlap h text) := by
  induction text using slidingWindow.induct size overlap h with
  | case1 x h1 h2 =>
    intro i hi
    rw [slidingWindow_eq] at hi
    simp [if_pos h1, h2] at hi
  | case2 x h1 h2 =>
    intro i hi
    rw [slidingWindow_eq] at hi
    simp only [if_pos h1, if_neg h2, List.length_singleton] at hi
    omega
  | case3 x h1 ih =>
    intro i hi
    rw [slidingWindow_eq, if_neg h1] at hi ⊢
    simp only [List.length_cons] at hi
    have hxd : x.drop (size - overlap) ≠ [] := by
      have : (x.drop (size - overlap)).length = x.length - (size - overlap) :=
        List.length_drop _ _
      intro hnil
      rw [hnil] at this
      simp at this
      omega
    match i with
    | 0 =>
      have hhead := slidingWindow_getD_zero size overlap h (x.drop (size - overlap)) hxd
      refine ⟨?_, ?_, ?_⟩
      · simp only [List.getD_cons_zero, List.length_take]
        omega
      · simp only [List.getD_cons_succ, hhead, List.length_take, List.length_drop]
        omega
      · simp only [List.getD_cons_zero, List.getD_cons_succ, hhead]
        rw [List.drop_take, List.take_take]
        have h1' : size - (size - overlap) = overlap := by omega
        have h2' : min overlap size = overlap := by omega
        rw [h1', h2']
    | i + 1 =>
      have hi' : i + 1 < (slidingWindow size overlap h (x.drop (size - overlap))).length := by
        omega
      have := ih i hi'
      simpa only [List.getD_cons_succ] using this

/-- The chunk texts of one document are exactly the splitter's output. -/
theorem chunksOfDoc_page_content (d : Doc) :
    (chunksOfDoc d).map Doc.page_content =
      slidingWindow 1000 200 (by norm_num) d.page_content := by
  simp only [chunksOfDoc, List.map_map]
  have hcomp : (Doc.page_content ∘ fun t => ({ page_content := t, metadata := d.metadata } : Doc))
      = id := funext (fun t => rfl)
  rw [hcomp, List.map_id]

/-- Claim C1 (amended): for every non-empty list of input Documents whose
texts are all non-empty, `create_chunks_in_memory` returns a non-empty chunk
list, every chunk's text has at most `chunk_size = 1000` characters, chunks
are the per-document splits concatenated in order, and within each document
consecutive chunks share exactly `chunk_overlap = 200` trailing/leading
characters (the final chunk may be shorter than `chunk_size`). -/
theorem create_chunks_in_memory_claim (docs : List Doc)
    (hne : docs ≠ []) (htext : ∀ d ∈ docs, d.page_content ≠ []) :
    create_chunks_in_memory docs ≠ []
    ∧ create_chunks_in_memory docs = docs.flatMap chunksOfDoc
    ∧ (∀ c ∈ create_chunks_in_memory docs, c.page_content.length ≤ 1000)
    ∧ ∀ d ∈ docs,
        consecSharesOverlap 1000 200 ((chunksOfDoc d).map Doc.page_content) := by
  have heq : create_chunks_in_memory docs = docs.flatMap chunksOfDoc := by
    simp [create_chunks_in_memory, List.isEmpty_iff, hne]
  refine ⟨?_, heq, ?_, ?_⟩
  · rw [heq]
    rcases docs with _ | ⟨d, rest⟩
    · exact absurd rfl hne
    · have hd : chunksOfDoc d ≠ [] := by
        simp only [chunksOfDoc, ne_eq, List.map_eq_nil_iff]
        exact slidingWindow_ne_nil 1000 200 (by norm_num) d.page_content
          (htext d (by simp))
      simp only [List.flatMap_cons]
      intro hcontra
      exact hd (List.append_eq_nil.1 hcontra).1
  · rw [heq]
    intro c hc
    rcases List.mem_flatMap.1 hc with ⟨d, _, hcd⟩
    simp only [chunksOfDoc, List.mem_map] at hcd
    rcases hcd with ⟨t, hts, hteq⟩
    have hlen := slidingWindow_length_le 1000 200 (by norm_num) d.page_content t hts
    rw [← hteq]
    exact hlen
  · intro d _
    rw [chunksOfDoc_page_content]
    exact slidingWindow_consec 1000 200 (by norm_num) d.page_content

/-- Witness for C1 (amended) at a concrete one-document input. -/
theorem create_chunks_in_memory_claim_witness :
    create_chunks_in_memory [Doc.mk "hi".data []] ≠ [] :=
  (create_chunks_in_memory_claim [Doc.mk "hi".data []] (by decide) (by decide)).1

/-- Counterexample to claim C1 as stated: a non-empty Document list whose
single document carries empty text produces an empty chunk list (the splitter
emits no chunk for empty content), so non-emptiness of the input list alone
does not give a non-empty chunk list. -/
theorem create_chunks_in_memory_empty_text :
    ([Doc.mk [] []] : List Doc) ≠ []
    ∧ create_chunks_in_memory [Doc.mk [] []] = [] := by
  refine ⟨by simp, ?_⟩
  simp [create_chunks_in_memory, chunksOfDoc, slidingWindow_eq]

/-- Unfolding: an unquoted-field character is consumed and kept. -/
theorem parseUnquoted_cons_ne (c : Char) (rest : List Char)
    (h1 : c ≠ ',') (h2 : c ≠ '\n') :
    parseUnquoted (c :: rest) = (c :: (parseUnquoted rest).1, (parseUnquoted rest).2) := by
  conv_lhs => rw [parseUnquoted.eq_def]
  simp [h1, h2]

/-- Unfolding: an unquoted field stops at a separator. -/
theorem parseUnquoted_sep (c : Char) (rest : List Char) (h : c = ',' ∨ c = '\n') :
    parseUnquoted (c :: rest) = ([], c :: rest) := by
  conv_lhs => rw [parseUnquoted.eq_def]
  rcases h with h | h <;> subst h <;> simp

/-- Unfolding: a non-quote character inside a quoted field is kept. -/
theorem parseQuoted_cons_ne (c : Char) (rest : List Char) (hc : c ≠ dq) :
    parseQuoted (c :: rest) = (c :: (parseQuoted rest).1, (parseQuoted rest).2) := by
  conv_lhs => rw [parseQuoted.eq_def]
  simp [hc]

/-- Unfolding: a doubled quote inside a quoted field stands for one quote. -/
theorem parseQuoted_dq_dq (rest : List Char) :
    parseQuoted (dq :: dq :: rest) = (dq :: (parseQuoted rest).1, (parseQuoted rest).2) := by
  conv_lhs => rw [parseQuoted.eq_def]
  simp [dq]

/-- Unfolding: a closing quote ends the field. -/
theorem parseQuoted_dq_cons (c2 : Char) (r : List Char) (h : c2 ≠ dq) :
    parseQuoted (dq :: c2 :: r) = ([], c2 :: r) := by
  conv_lhs => rw [parseQuoted.eq_def]
  simp [h]

/-- An unquoted encoded field followed by a separator parses back exactly. -/
theorem parseUnquoted_append (f rest : List Char)
    (hf : needsQuote f = false)
    (hrest : rest = [] ∨ (∃ r, rest = ',' :: r) ∨ (∃ r, rest = '\n' :: r)) :
    parseUnquoted (f ++ rest) = (f, rest) := by
  induction f with
  | nil =>
    simp only [List.nil_append]
    rcases hrest with h | ⟨r, h⟩ | ⟨r, h⟩ <;> subst h
    · rfl
    · exact parseUnquoted_sep ',' r (Or.inl rfl)
    · exact parseUnquoted_sep '\n' r (Or.inr rfl)
  | cons c f' ih =>
    simp only [needsQuote, List.any_cons, Bool.or_eq_false_iff,
      decide_eq_false_iff_not] at hf
    obtain ⟨⟨⟨⟨hc1, _⟩, hc3⟩, _⟩, hf'⟩ := hf
    have hrec := ih (by simpa [needsQuote] using hf')
    rw [List.cons_append, parseUnquoted_cons_ne c _ hc1 hc3, hrec]

/-- A quote-escaped field body followed by its closing quote parses back
exactly. -/
theorem parseQuoted_append (f rest : List Char)
    (hrest : rest = [] ∨ (∃ r, rest = ',' :: r) ∨ (∃ r, rest = '\n' :: r)) :
    parseQuoted (escapeQuotes f ++ dq :: rest) = (f, rest) := by
  induction f with
  | nil =>
    simp only [escapeQuotes, List.flatMap_nil, List.nil_append]
    rcases hrest with h | ⟨r, h⟩ | ⟨r, h⟩ <;> subst h
    · rfl
    · exact parseQuoted_dq_cons ',' r (by decide)
    · exact parseQuoted_dq_cons '\n' r (by decide)
  | cons c f' ih =>
    by_cases hc : c = dq
    · subst hc
      rw [show escapeQuotes (dq :: f') = dq :: dq :: escapeQuotes f' from
            by simp [escapeQuotes, dq],
          List.cons_append, List.cons_append, parseQuoted_dq_dq, ih]
    · rw [show escapeQuotes (c :: f') = c :: escapeQuotes f' from
            by simp [escapeQuotes, hc],
          List.cons_append, parseQuoted_cons_ne c _ hc, ih]

/-- Any encoded field followed by a separator parses back exactly. -/
theorem parseField_append (f rest : List Char)
    (hrest : rest = [] ∨ (∃ r, rest = ',' :: r) ∨ (∃ r, rest = '\n' :: r)) :
    parseField (encodeField f ++ rest) = (f, rest) := by
  by_cases hq : needsQuote f
  · simp only [encodeField, if_pos hq, List.cons_append, List.append_assoc,
      List.singleton_append]
    simp only [parseField, if_pos rfl]
    exact parseQuoted_append f rest hrest
  · simp only [encodeField, if_neg hq]
    cases f with
    | nil =>
      simp only [List.nil_append]
      rcases hrest with h | ⟨r, h⟩ | ⟨r, h⟩ <;> subst h <;>
        simp [parseField, parseUnquoted, dq]
    | cons c f' =>
      have hc : c ≠ dq := by
        intro hh
        subst hh
        simp [needsQuote] at hq
      simp only [List.cons_append, parseField, if_neg hc]
      have := parseUnquoted_append (c :: f') rest (by simpa using hq) hrest
      simpa using this

/-- One encoded row followed by further content parses back as one record. -/
theorem parseRecord3_encodeRow (r : Row) (rest : List Char) :
    parseRecord3 (encodeRow r ++ rest) = some (r, rest) := by
  have h3 := parseField_append r.doc_type ('\n' :: rest) (Or.inr (Or.inr ⟨rest, rfl⟩))
  have h2 := parseField_append r.source
    (',' :: (encodeField r.doc_type ++ '\n' :: rest)) (Or.inr (Or.inl ⟨_, rfl⟩))
  have h1 := parseField_append r.text
    (',' :: (encodeField r.source ++ ',' :: (encodeField r.doc_type ++ '\n' :: rest)))
    (Or.inr (Or.inl ⟨_, rfl⟩))
  have heq : encodeRow r ++ rest =
      encodeField r.text ++ (',' :: (encodeField r.source ++
        (',' :: (encodeField r.doc_type ++ ('\n' :: rest))))) := by
    simp [encodeRow, List.append_assoc]
  rw [heq]
  simp [parseRecord3, h1, h2, h3, expectChar, expectEnd]

/-- Concatenated encoded rows parse back exactly, given enough fuel. -/
theorem parseRecords_flatMap (rows : List Row) :
    ∀ fuel, rows.length < fuel →
      parseRecords fuel (rows.flatMap encodeRow) = some rows := by
  induction rows with
  | nil =>
    intro fuel hf
    cases fuel with
    | zero => omega
    | succ n => simp [parseRecords]
  | cons r rs ih =>
    intro fuel hf
    cases fuel with
    | zero => omega
    | succ n =>
      have hne : (encodeRow r ++ rs.flatMap encodeRow) ≠ [] := by
        intro hh
        have := congrArg List.length hh
        simp [encodeRow] at this
      simp only [List.flatMap_cons, parseRecords]
      rw [if_neg (fun hh => hne (List.isEmpty_iff.1 hh))]
      simp only [parseRecord3_encodeRow, ih n (by simpa using Nat.lt_of_succ_lt_succ hf)]

/-- The written header line is the encoding of the header row. -/
theorem headerLine_eq : headerLine = encodeRow hdrRow := by decide

/-- Each encoded row contributes at least one character. -/
theorem flatMap_encodeRow_length (rows : List Row) :
    rows.length ≤ (rows.flatMap encodeRow).length := by
  induction rows with
  | nil => simp
  | cons r rs ih =>
    simp only [List.flatMap_cons, List.length_append, List.length_cons]
    have h1 : 1 ≤ (encodeRow r).length := by
      simp [encodeRow]
      omega
    omega

/-- Claim C6 (amended): for every input that is empty or yields at least one
chunk, the rows `create_chunks` writes to the snapshot, re-read by a CSV
reader for the written format, reproduce exactly the `text, source, doc_type`
values of the in-memory chunk list, in order, with `source` and `doc_type`
taken from each chunk's metadata (empty string when absent).  When a
non-empty input yields zero chunks the snapshot has a blank header and the
re-read fails instead. -/
theorem snapshot_roundtrip (documents : List Doc)
    (h : documents = [] ∨ (create_chunks documents).2 ≠ []) :
    readSnapshot (create_chunks documents).1.2 =
      some (((create_chunks documents).2).map rowOfChunk) := by
  by_cases hd : documents.isEmpty
  · simp only [create_chunks, if_pos hd]
    decide
  · have hch : documents.flatMap chunksOfDoc ≠ [] := by
      rcases h with h | h
      · exact absurd (List.isEmpty_iff.2 h) (by simpa using hd)
      · simpa [create_chunks, hd] using h
    simp only [create_chunks, if_neg hd,
      if_neg (fun hh => hch (List.isEmpty_iff.1 hh))]
    have henc : encodeCsv ((documents.flatMap chunksOfDoc).map rowOfChunk) =
        ((hdrRow :: (documents.flatMap chunksOfDoc).map rowOfChunk).flatMap encodeRow) := by
      simp [encodeCsv, headerLine_eq, List.flatMap_cons]
    simp only [readSnapshot, henc]
    rw [parseRecords_flatMap (hdrRow :: (documents.flatMap chunksOfDoc).map rowOfChunk) _
      (Nat.lt_succ_of_le (flatMap_encodeRow_length _))]
    simp

/-- Witness for C6 (amended) at a concrete one-document input that yields one
chunk. -/
theorem snapshot_roundtrip_witness :
    readSnapshot (create_chunks [Doc.mk "hi".data []]).1.2 =
      some (((create_chunks [Doc.mk "hi".data []]).2).map rowOfChunk) :=
  snapshot_roundtrip [Doc.mk "hi".data []]
    (Or.inr (by simp [create_chunks, chunksOfDoc, slidingWindow_eq]))

/-- Counterexample to claim C6 as stated: for the non-empty input
`[Document("")]` the splitter yields zero chunks, the row comprehension is
empty, and the written snapshot is a columnless blank header (a lone
newline); the re-read fails on that content, so it does not reproduce the
(empty) chunk list. -/
theorem snapshot_roundtrip_blank_header :
    ([Doc.mk [] []] : List Doc) ≠ []
    ∧ (create_chunks [Doc.mk [] []]).2 = []
    ∧ (create_chunks [Doc.mk [] []]).1.2 = ['\n']
    ∧ readSnapshot (create_chunks [Doc.mk [] []]).1.2 = none
    ∧ readSnapshot (create_chunks [Doc.mk [] []]).1.2 ≠
        some (((create_chunks [Doc.mk [] []]).2).map rowOfChunk) := by
  have hch : ([Doc.mk [] []] : List Doc).flatMap chunksOfDoc = [] := by
    simp [chunksOfDoc, slidingWindow_eq]
  have hcc : create_chunks [Doc.mk [] []] =
      ((chunkingConfig.chunks_file, ['\n']), []) := by
    simp [create_chunks, hch]
  refine ⟨by simp, ?_, ?_, ?_, ?_⟩ <;> rw [hcc] <;> first | rfl | decide

end Flash
